import Mathlib

/-!
Shallow embedding of the zfi crate's resource/memory/device-path core:
`PoolAllocator` (src/allocator.rs), `BootServices::get_memory_map`
(src/boot.rs), `File::info` (src/filesystem.rs), `Path`/`PathBuf`
(src/path.rs), `EfiStr` (src/string.rs) and `Owned` (src/pointer.rs).

Machine integers are modelled as `Nat` with explicit `% 2^w` where overflow
matters; host interactions are modelled as explicit response lists; fallible
or diverging code returns `Option` or a dedicated outcome type.
-/

namespace ZFI

/-! ## PoolAllocator (src/allocator.rs)

`alloc` receives a `Layout` (size, align); it pads the requested size, asks
the host pool (8-byte aligned) for memory, shifts the returned pointer
forward to the requested alignment and stores the shift amount as a `usize`
right after the logical allocation.  `dealloc` reads the stored shift back
and passes the unshifted pointer to `free_pool`.  Addresses are `Nat`. -/

structure Layout where
  size : Nat
  align : Nat

/-- Padded size requested from the host pool:
`(if align <= 8 then size else size + (align - 8)) + size_of::<usize>` . -/
def allocSize (l : Layout) : Nat :=
  (if l.align ≤ 8 then l.size else l.size + (l.align - 8)) + 8

/-- `adjust`: number of bytes the host pointer is shifted forward.
`misaligned = mem % align; if misaligned == 0 { 0 } else { align - misaligned }` . -/
def allocAdjust (align mem : Nat) : Nat :=
  let misaligned := mem % align
  if misaligned = 0 then 0 else align - misaligned

/-- The pointer `PoolAllocator::alloc` returns when the host pool handed out
address `mem`: `mem.add(adjust)`. -/
def allocResult (l : Layout) (mem : Nat) : Nat :=
  mem + allocAdjust l.align mem

/-- Address at which `alloc` stores the adjustment: `mem.add(adjust).add(layout.size())`. -/
def allocStoreAddr (l : Layout) (mem : Nat) : Nat :=
  allocResult l mem + l.size

/-- Address from which `dealloc` reads the adjustment back: `ptr.add(layout.size())`. -/
def deallocLoadAddr (l : Layout) (ptr : Nat) : Nat :=
  ptr + l.size

/-- Pointer `dealloc` hands to `free_pool`: `ptr.sub(adjusted)` where
`adjusted` is the value read at `deallocLoadAddr`. -/
def deallocFreed (ptr adjusted : Nat) : Nat :=
  ptr - adjusted

/-! ## BootServices::get_memory_map (src/boot.rs)

`MemoryDescriptor` is `repr(C)` `{u32, u64, u64, u64, u64}`: size 40.
The loop keeps a descriptor count `len` (initially 1), allocates a
`Vec<MemoryDescriptor>` of that capacity, calls the host with
`size = len * 40`, then recomputes `len = size / 40` from the host-updated
`size`.  On success it asserts the host descriptor stride is 40 and the
descriptor version is 1, `set_len(len)`s the vector and returns it with the
map key; on `BUFFER_TOO_SMALL` the vector is dropped and the loop retries;
on any other status the vector is dropped and the status is returned.

The host is modelled as a list of responses, one per call; each response
gives the values the host writes into `size`, `key`, `dsize`, `dver`.
Buffer lifetime is recorded as a trace of alloc/free events (capacity in
bytes); the vector returned on success is not freed. -/

def descSize : Nat := 40

inductive MmResponse where
  | success (size key dsize dver : Nat)
  | bufferTooSmall (size : Nat)
  | err (status : Nat)
deriving DecidableEq, Repr

inductive BufEvent where
  | alloc (cap : Nat)
  | free (cap : Nat)
deriving DecidableEq, Repr

inductive MmOutcome where
  | ok (nrecords key : Nat)
  | fail (status : Nat)
  | panicked
  | pending
deriving DecidableEq, Repr

/-- The `get_memory_map` loop.  `pending` means the response list ran out
while the loop would have called the host again.  An assertion failure
(`assert_eq!(dsize, 40)` / `assert_eq!(dver, 1)`) is `panicked`; the buffer
of the panicking iteration is not freed. -/
def getMemoryMap : Nat → List MmResponse → MmOutcome × List BufEvent
  | _, [] => (.pending, [])
  | len, r :: rest =>
    let cap := len * descSize
    match r with
    | .success size key dsize dver =>
      if dsize = descSize ∧ dver = 1 then
        (.ok (size / descSize) key, [.alloc cap])
      else
        (.panicked, [.alloc cap])
    | .bufferTooSmall size =>
      let n := getMemoryMap (size / descSize) rest
      (n.1, .alloc cap :: .free cap :: n.2)
    | .err status => (.fail status, [.alloc cap, .free cap])

/-! ## File::info (src/filesystem.rs)

The loop starts from `Layout::from_size_align(0x52, 8)`, allocates a buffer
of `layout.size()` bytes, sets `len = layout.size()` and calls
`get_info`.  On success it returns `FileInfoBuf { buf, len: layout.size() }`
— the capacity, not the host-updated `len`.  Otherwise the buffer is freed;
on `BUFFER_TOO_SMALL` the layout is rebuilt from the host-updated `len` and
the loop retries, on any other status the status is returned. -/

inductive FiResponse where
  | success (len : Nat)
  | bufferTooSmall (len : Nat)
  | err (status : Nat)
deriving DecidableEq, Repr

inductive FiOutcome where
  | ok (len : Nat)
  | fail (status : Nat)
  | pending
deriving DecidableEq, Repr

/-- The `File::info` probe/allocate/retry loop; `cap` is the current
`layout.size()`.  The `len` a successful host call reports is ignored:
the returned `FileInfoBuf` carries `layout.size()`. -/
def fileInfo : Nat → List FiResponse → FiOutcome × List BufEvent
  | _, [] => (.pending, [])
  | cap, r :: rest =>
    match r with
    | .success _ => (.ok cap, [.alloc cap])
    | .bufferTooSmall len =>
      let n := fileInfo len rest
      (n.1, .alloc cap :: .free cap :: n.2)
    | .err status => (.fail status, [.alloc cap, .free cap])

/-- Initial guess `0x52` used by `File::info`. -/
def fileInfoInitialCap : Nat := 0x52

/-- A buffer-event trace with no leak across retries: every allocation is
immediately followed by a free of the same capacity, except that a single
trailing allocation (the buffer returned to the caller) may remain live. -/
inductive NoLeak : List BufEvent → Prop
  | nil : NoLeak []
  | last (c : Nat) : NoLeak [.alloc c]
  | cons (c : Nat) (t : List BufEvent) : NoLeak t → NoLeak (.alloc c :: .free c :: t)

/-! ## EfiStr (src/string.rs)

An `EfiStr` is a NUL-terminated `[u16]` with no interior NUL.  We model the
string by its list of non-NUL UCS-2 code units (each `< 2^16`, nonzero).
`<EfiStr as AsRef<[u8]>>::as_ref` reinterprets the `[u16]` (terminator
included) as bytes; the supported targets are little-endian, so a unit `c`
becomes `[c % 256, c / 256]`. -/

/-- Bytes of one `u16` code unit (little-endian, as on the supported targets). -/
def u16Bytes (c : Nat) : List Nat :=
  [c % 256, c / 256 % 256]

/-- `AsRef<[u8]>` for `EfiStr`: every code unit of the string, then the NUL
terminator, two bytes each. -/
def efiStrBytes : List Nat → List Nat
  | [] => u16Bytes 0
  | c :: rest => u16Bytes c ++ efiStrBytes rest

/-- `EfiStr::from_ptr`: read u16 units (two consecutive bytes, little-endian)
until a NUL unit.  Fuel bounds the scan at the end of the modelled buffer,
where the source would keep reading adjacent memory. -/
def efiStrFromBytes : Nat → List Nat → List Nat
  | 0, _ => []
  | fuel + 1, b0 :: b1 :: rest =>
    if b0 + 256 * b1 = 0 then [] else (b0 + 256 * b1) :: efiStrFromBytes fuel rest
  | _ + 1, [] => []
  | _ + 1, [_] => []

/-! ## Path / PathBuf (src/path.rs)

A device path is a byte sequence of records: 1-byte type, 1-byte subtype,
2-byte unaligned native-endian length (header included), payload.  The
sentinel record is `7F FF 04 00`.  `PathBuf` wraps a
`Cow<'static, [u8]>`: `PathBuf::new()` is the borrowed sentinel,
`Cow::to_mut` copies on first mutation.  Bytes are `Nat < 256`. -/

/-- The `End Entire Device Path` sentinel record. -/
def sentinel : List Nat := [0x7F, 0xFF, 0x04, 0x00]

inductive CowBytes where
  | borrowed (b : List Nat)
  | owned (b : List Nat)
deriving DecidableEq, Repr

/-- The byte contents regardless of representation. -/
def CowBytes.bytes : CowBytes → List Nat
  | .borrowed b => b
  | .owned b => b

/-- `Cow::to_mut`: a borrowed slice is copied into an owned vector; an owned
vector is mutated in place.  Either way the mutable bytes are the contents. -/
def CowBytes.toMut : CowBytes → List Nat :=
  CowBytes.bytes

structure PathBuf where
  rep : CowBytes
deriving DecidableEq, Repr

/-- `PathBuf::new()`: the borrowed `Path::EMPTY` bytes (just the sentinel). -/
def PathBuf.new : PathBuf := ⟨.borrowed sentinel⟩

/-- `PathBuf::push(ty, sub, data)`.  `none` models a panic:
`(data.len() + 4).try_into::<u16>().unwrap()` panics when
`data.len() + 4 > 0xFFFF`, and the slicing `path[path.len() - 4 ..]`
panics when the buffer is shorter than 4 bytes (impossible for a
well-formed path).  Otherwise the last 4 bytes (the sentinel) are
overwritten with the new record's header, the payload is appended, and a
fresh sentinel is appended; the result is always the owned representation. -/
def PathBuf.push (p : PathBuf) (ty sub : Nat) (data : List Nat) : Option PathBuf :=
  if data.length + 4 > 0xFFFF then none
  else
    let path := p.rep.toMut
    if path.length < 4 then none
    else
      let len := data.length + 4
      some ⟨.owned (path.take (path.length - 4) ++
        [ty, sub, len % 256, len / 256 % 256] ++ data ++ sentinel)⟩

/-- `PathBuf::push_media_file_path(file)`: `push(4, 4, file.as_bytes())`
where the bytes include the NUL terminator. -/
def PathBuf.pushMediaFilePath (p : PathBuf) (file : List Nat) : Option PathBuf :=
  p.push 4 4 (efiStrBytes file)

/-- Result of `Path::read`.  `unimplemented` models the `todo!` macro:
the function diverges (panics) on every type/subtype pair other than
`(4, 4)`, recording which pair was hit. -/
inductive PathNode where
  | mediaFilePath (s : List Nat)
  | unimplemented (ty sub : Nat)
deriving DecidableEq, Repr

/-- `Path::read`: inspect the leading record.  For type 4 subtype 4 decode
the payload (starting at offset 4) as an `EfiStr`; anything else hits
`todo!`. -/
def pathRead (b : List Nat) : PathNode :=
  if b.getD 0 0 = 4 ∧ b.getD 1 0 = 4 then
    .mediaFilePath (efiStrFromBytes (b.drop 4).length (b.drop 4))
  else
    .unimplemented (b.getD 0 0) (b.getD 1 0)

/-- Result of `Path::to_media_file_path`.  The source matches `read`'s
result against the single-variant `PathNode` enum and wraps it in `Some`;
there is no arm producing `None`, and the `todo!` inside `read` diverges
before the match. -/
inductive MfpResult where
  | value (s : Option (List Nat))
  | diverge (ty sub : Nat)
deriving DecidableEq, Repr

/-- `Path::to_media_file_path`. -/
def toMediaFilePath (b : List Nat) : MfpResult :=
  match pathRead b with
  | .mediaFilePath v => .value (some v)
  | .unimplemented t s => .diverge t s

/-- `Path::EMPTY`: the sentinel alone. -/
def pathEmpty : List Nat := sentinel

/-- One step of the `PathNodes` iterator: if the current record is the
sentinel the iteration ends; otherwise the iterator yields the whole
remaining slice (`Path::new_unchecked(p)`) and advances by the current
record's 16-bit length field. -/
def pathNodesNext (p : List Nat) : Option (List Nat × List Nat) :=
  if p.getD 0 0 = 0x7F ∧ p.getD 1 0 = 0xFF then none
  else
    let l := p.getD 2 0 + 256 * p.getD 3 0
    some (p, p.drop l)

/-- Collect the nodes the iterator yields; fuel bounds the traversal (the
source iterator is only ever run on well-formed, sentinel-terminated
paths, where it is finite). -/
def pathNodes : Nat → List Nat → List (List Nat)
  | 0, _ => []
  | fuel + 1, p =>
    match pathNodesNext p with
    | none => []
    | some (node, rest) => node :: pathNodes fuel rest

/-! ## Owned (src/pointer.rs)

`Owned<T>` holds a raw pointer and an `Option<Dtor<T>>`; `Dtor` is either a
plain function pointer or a boxed `FnOnce` closure.  `Drop::drop` does
`self.dtor.take().unwrap()` and invokes the taken destructor on the
pointer.  Pointers are `Nat`; the two destructor flavors are tagged with an
identifier standing for the function/closure.  Dropping is modelled
explicitly: it returns the list of release invocations `(dtor, ptr)` it
performs, whether it panicked (the `unwrap` on `None`), and the
post-state.  Rust runs `Drop::drop` exactly once per value (move-only
semantics); the post-state makes the hypothetical second run explicit. -/

inductive Dtor where
  | function (f : Nat)
  | closure (f : Nat)
deriving DecidableEq, Repr

structure Owned where
  ptr : Nat
  dtor : Option Dtor
deriving DecidableEq, Repr

/-- `Owned::new(ptr, dtor)`. -/
def Owned.new (p : Nat) (d : Dtor) : Owned := ⟨p, some d⟩

structure DropResult where
  calls : List (Dtor × Nat)
  panicked : Bool
  post : Owned
deriving DecidableEq, Repr

/-- `<Owned as Drop>::drop`: take the destructor out of the option and
invoke it on the wrapped pointer; if it was already taken, the `unwrap`
panics and no release call is made. -/
def Owned.drop : Owned → DropResult
  | ⟨p, some d⟩ => ⟨[(d, p)], false, ⟨p, none⟩⟩
  | ⟨p, none⟩ => ⟨[], true, ⟨p, none⟩⟩

end ZFI

namespace ZFI

/-! ## Claim C1 -/

/-- C1: for every allocation size and power-of-two alignment `a`, when the
host pool allocation succeeds at an 8-byte-aligned address `mem`,
`PoolAllocator::alloc` returns a pointer `p` with `p % a = 0`; the
adjustment is stored at the same address `dealloc` later reads it from, and
`dealloc` passes exactly the original host pointer `mem` (that is,
`p - adjust`) to `free_pool`. -/
theorem poolAllocator_align_and_exact_free (l : Layout) (k mem : Nat)
    (ha : l.align = 2 ^ k) (hm : mem % 8 = 0) :
    allocResult l mem % l.align = 0 ∧
    allocStoreAddr l mem = deallocLoadAddr l (allocResult l mem) ∧
    deallocFreed (allocResult l mem) (allocAdjust l.align mem) = mem := by
  refine ⟨?_, rfl, by simp [deallocFreed, allocResult]⟩
  have hpos : 0 < l.align := ha ▸ Nat.pos_pow_of_pos k (by norm_num)
  unfold allocResult allocAdjust
  by_cases h : mem % l.align = 0
  · simp [h, Nat.add_zero]
  · rw [if_neg h]
    have hlt : mem % l.align < l.align := Nat.mod_lt _ hpos
    have hdm : l.align * (mem / l.align) + mem % l.align = mem :=
      Nat.div_add_mod mem l.align
    have hstep : mem + (l.align - mem % l.align) =
        l.align * (mem / l.align) + l.align := by
      omega
    rw [hstep, ← Nat.mul_succ]
    exact Nat.mul_mod_right _ _

/-- Witness for C1 at size 5, align 16, host address 8:
the returned pointer is 16 and `free_pool` receives 8 again. -/
theorem poolAllocator_align_and_exact_free_witness :
    (⟨5, 16⟩ : Layout).align = 2 ^ 4 ∧ (8 : Nat) % 8 = 0 ∧
    (allocResult ⟨5, 16⟩ 8 % 16 = 0 ∧
      allocStoreAddr ⟨5, 16⟩ 8 = deallocLoadAddr ⟨5, 16⟩ (allocResult ⟨5, 16⟩ 8) ∧
      deallocFreed (allocResult ⟨5, 16⟩ 8) (allocAdjust 16 8) = 8) :=
  ⟨by norm_num, by norm_num,
    poolAllocator_align_and_exact_free ⟨5, 16⟩ 4 8 (by norm_num) (by norm_num)⟩

/-! ## Claim C2 -/

/-- C2 counterexample: when the host succeeds on the very first `get_info`
call reporting length `0x40` (smaller than the `0x52`-byte buffer),
`File::info` returns a `FileInfoBuf` of length `0x52` — the buffer's
capacity — not the host-reported `0x40`; the buffer is not trimmed. -/
theorem fileInfo_len_not_host_reported_cex :
    (fileInfo fileInfoInitialCap [.success 0x40]).1 = .ok 0x52 ∧ (0x52 : Nat) ≠ 0x40 := by
  constructor
  · rfl
  · decide

/-- C2 (amended): the length of the `FileInfoBuf` returned by `File::info`
is the capacity of the buffer used on the successful call (`layout.size()`)
— the initial guess if the first call succeeds, else the length reported by
the last `BUFFER_TOO_SMALL` — and the length the host reports on the
successful call itself is ignored. -/
theorem fileInfo_len_is_capacity :
    (∀ (cap l : Nat) (rest : List FiResponse),
      (fileInfo cap (.success l :: rest)).1 = .ok cap) ∧
    (∀ (cap s : Nat) (rest : List FiResponse),
      (fileInfo cap (.bufferTooSmall s :: rest)).1 = (fileInfo s rest).1) ∧
    (∀ (cap n : Nat) (rs : List FiResponse),
      (fileInfo cap rs).1 = .ok n →
      n = cap ∨ ∃ s, FiResponse.bufferTooSmall s ∈ rs ∧ n = s) := by
  refine ⟨fun cap l rest => rfl, fun cap s rest => rfl, fun cap n rs => ?_⟩
  induction rs generalizing cap with
  | nil => intro h; exact FiOutcome.noConfusion h
  | cons r rest ih =>
    intro h
    cases r with
    | success l =>
      have h' : FiOutcome.ok cap = FiOutcome.ok n := h
      injection h' with h1
      exact Or.inl h1.symm
    | bufferTooSmall s =>
      have h' : (fileInfo s rest).1 = .ok n := h
      rcases ih s h' with h1 | ⟨t, ht, h2⟩
      · exact Or.inr ⟨s, List.mem_cons_self _ _, h1⟩
      · exact Or.inr ⟨t, List.mem_cons_of_mem _ ht, h2⟩
    | err st => exact FiOutcome.noConfusion h

/-- Witness for C2's amended theorem: a `BUFFER_TOO_SMALL` reporting 100
followed by a success yields a `FileInfoBuf` of length 100 (a reported
`BUFFER_TOO_SMALL` length, not the initial guess). -/
theorem fileInfo_len_is_capacity_witness :
    (fileInfo fileInfoInitialCap [.bufferTooSmall 100, .success 5]).1 = .ok 100 ∧
    (100 = fileInfoInitialCap ∨
      ∃ s, FiResponse.bufferTooSmall s ∈
        [FiResponse.bufferTooSmall 100, FiResponse.success 5] ∧ 100 = s) :=
  ⟨rfl, fileInfo_len_is_capacity.2.2 fileInfoInitialCap 100 _ rfl⟩

/-! ## Claim C3 -/

/-- C3 counterexample: `get_memory_map` starting from descriptor count 1,
told `BUFFER_TOO_SMALL` with required size 41, frees the 40-byte buffer but
retries with a buffer of only `41 / 40 * 40 = 40` bytes — smaller than the
host-reported 41: the retry capacity is not "at least the host-reported
required size". -/
theorem getMemoryMap_retry_capacity_cex :
    getMemoryMap 1 [.bufferTooSmall 41, .success 40 0 40 1] =
      (.ok 1 0, [.alloc 40, .free 40, .alloc 40]) ∧ (40 : Nat) < 41 := by
  constructor
  · rfl
  · decide

/-- C3 (amended): in both probe/retry loops the current buffer is freed
before the next attempt and no buffer leaks across retries (every trace is
alloc/free balanced up to one trailing live allocation, the returned
buffer).  On `BUFFER_TOO_SMALL` reporting size `s`, `File::info` retries
with capacity exactly `s`, but `get_memory_map` retries with
`s / 40` descriptors, i.e. `s / 40 * 40` bytes — the reported size rounded
down to a multiple of `size_of::<MemoryDescriptor>()` — which is at least
`s` only when `s` is a multiple of 40. -/
theorem probeRetry_frees_before_retry :
    (∀ (cap s : Nat) (rest : List FiResponse),
      fileInfo cap (.bufferTooSmall s :: rest) =
        ((fileInfo s rest).1, .alloc cap :: .free cap :: (fileInfo s rest).2)) ∧
    (∀ (len s : Nat) (rest : List MmResponse),
      getMemoryMap len (.bufferTooSmall s :: rest) =
        ((getMemoryMap (s / descSize) rest).1,
          .alloc (len * descSize) :: .free (len * descSize) ::
            (getMemoryMap (s / descSize) rest).2)) ∧
    (∀ (cap : Nat) (r : FiResponse) (rest : List FiResponse),
      (fileInfo cap (r :: rest)).2.head? = some (.alloc cap)) ∧
    (∀ (len : Nat) (r : MmResponse) (rest : List MmResponse),
      (getMemoryMap len (r :: rest)).2.head? = some (.alloc (len * descSize))) ∧
    (∀ (cap : Nat) (rs : List FiResponse), NoLeak (fileInfo cap rs).2) ∧
    (∀ (len : Nat) (rs : List MmResponse), NoLeak (getMemoryMap len rs).2) ∧
    (∀ s : Nat, s / descSize * descSize ≤ s) := by
  have hmmSuccTr : ∀ (len size key dsize dver : Nat) (rest : List MmResponse),
      (getMemoryMap len (.success size key dsize dver :: rest)).2 =
        [.alloc (len * descSize)] := by
    intro len size key dsize dver rest
    by_cases h : dsize = descSize ∧ dver = 1 <;> simp [getMemoryMap, h]
  refine ⟨fun cap s rest => rfl, fun len s rest => rfl, ?_, ?_, ?_, ?_,
    fun s => Nat.div_mul_le_self s descSize⟩
  · intro cap r rest
    cases r <;> rfl
  · intro len r rest
    cases r with
    | success size key dsize dver => rw [hmmSuccTr]; rfl
    | bufferTooSmall size => rfl
    | err status => rfl
  · intro cap rs
    induction rs generalizing cap with
    | nil => exact NoLeak.nil
    | cons r rest ih =>
      cases r with
      | success l => exact NoLeak.last cap
      | bufferTooSmall s => exact NoLeak.cons cap _ (ih s)
      | err st => exact NoLeak.cons cap [] NoLeak.nil
  · intro len rs
    induction rs generalizing len with
    | nil => exact NoLeak.nil
    | cons r rest ih =>
      cases r with
      | success size key dsize dver =>
        rw [hmmSuccTr]
        exact NoLeak.last _
      | bufferTooSmall size => exact NoLeak.cons _ _ (ih (size / descSize))
      | err status => exact NoLeak.cons _ [] NoLeak.nil

/-! ## Claim C4 -/

/-- C4 counterexample: a successful `get_memory_map` host call reporting a
total size of 41 bytes — not a multiple of `size_of::<MemoryDescriptor>()`
(40) — with stride 40 and version 1 passes both assertions and returns
`Ok` with `41 / 40 = 1` record: the result is silently truncated, no
assertion fails. -/
theorem getMemoryMap_truncates_cex :
    getMemoryMap 1 [.success 41 7 40 1] = (.ok 1 7, [.alloc 40]) ∧
    ¬(41 % descSize = 0) ∧ 1 * descSize ≠ 41 := by
  refine ⟨rfl, ?_, ?_⟩ <;> decide

/-- C4 (amended): the assertions on a successful `get_memory_map` call
check only that the host-reported descriptor stride equals
`size_of::<MemoryDescriptor>()` (40) and the descriptor version equals 1;
a panic arises exactly from a success response violating one of these.  A
success byte length that is not a multiple of the record size is not
detected: the returned record count is `size / 40`, truncating downward
(so `nrecords * 40 ≤ size < nrecords * 40 + 40`). -/
theorem getMemoryMap_success_assertions :
    (∀ (len n k : Nat) (rs : List MmResponse),
      (getMemoryMap len rs).1 = .ok n k →
      ∃ s d v, MmResponse.success s k d v ∈ rs ∧ d = descSize ∧ v = 1 ∧
        n = s / descSize ∧ n * descSize ≤ s ∧ s < n * descSize + descSize) ∧
    (∀ (len : Nat) (rs : List MmResponse),
      (getMemoryMap len rs).1 = .panicked →
      ∃ s k d v, MmResponse.success s k d v ∈ rs ∧ ¬(d = descSize ∧ v = 1)) := by
  have hsucc : ∀ (len size key dsize dver : Nat) (rest : List MmResponse),
      (getMemoryMap len (.success size key dsize dver :: rest)).1 =
        if dsize = descSize ∧ dver = 1 then .ok (size / descSize) key
        else .panicked := by
    intro len size key dsize dver rest
    by_cases h : dsize = descSize ∧ dver = 1 <;> simp [getMemoryMap, h]
  constructor
  · intro len n k rs
    induction rs generalizing len with
    | nil => intro h; exact MmOutcome.noConfusion h
    | cons r rest ih =>
      intro h
      cases r with
      | success size key dsize dver =>
        rw [hsucc] at h
        by_cases hc : dsize = descSize ∧ dver = 1
        · rw [if_pos hc] at h
          injection h with h1 h2
          subst h1
          subst h2
          refine ⟨size, dsize, dver, List.mem_cons_self _ _, hc.1, hc.2, rfl,
            Nat.div_mul_le_self size descSize, ?_⟩
          have hd : descSize = 40 := rfl
          have hdm := Nat.div_add_mod size 40
          have hm : size % 40 < 40 := Nat.mod_lt _ (by norm_num)
          rw [hd]
          omega
        · rw [if_neg hc] at h
          exact MmOutcome.noConfusion h
      | bufferTooSmall size =>
        have h' : (getMemoryMap (size / descSize) rest).1 = .ok n k := h
        obtain ⟨s, d, v, hmem, hrest⟩ := ih (size / descSize) h'
        exact ⟨s, d, v, List.mem_cons_of_mem _ hmem, hrest⟩
      | err status => exact MmOutcome.noConfusion h
  · intro len rs
    induction rs generalizing len with
    | nil => intro h; exact MmOutcome.noConfusion h
    | cons r rest ih =>
      intro h
      cases r with
      | success size key dsize dver =>
        by_cases hc : dsize = descSize ∧ dver = 1
        · rw [hsucc, if_pos hc] at h
          exact MmOutcome.noConfusion h
        · exact ⟨size, key, dsize, dver, List.mem_cons_self _ _, hc⟩
      | bufferTooSmall size =>
        have h' : (getMemoryMap (size / descSize) rest).1 = .panicked := h
        obtain ⟨s, k, d, v, hmem, hc⟩ := ih (size / descSize) h'
        exact ⟨s, k, d, v, List.mem_cons_of_mem _ hmem, hc⟩
      | err status => exact MmOutcome.noConfusion h

/-- Witness for C4's amended theorem: a success response with size 80,
key 3, stride 40, version 1 yields `Ok` with 2 records, and the required
success response is found in the list. -/
theorem getMemoryMap_success_assertions_witness :
    (getMemoryMap 1 [.success 80 3 40 1]).1 = .ok 2 3 ∧
    (∃ s d v, MmResponse.success s 3 d v ∈ [MmResponse.success 80 3 40 1] ∧
      d = descSize ∧ v = 1 ∧ 2 = s / descSize ∧
      2 * descSize ≤ s ∧ s < 2 * descSize + descSize) :=
  ⟨rfl, getMemoryMap_success_assertions.1 1 2 3 _ rfl⟩

/-! ## Claim C5 -/

/-- C5: pushing a record with type `ty`, subtype `sub` and payload `data`
onto a `PathBuf` whose bytes end in the 4-byte sentinel (and whose payload
fits the 16-bit length field, so the checked conversion does not panic)
overwrites the final 4 sentinel bytes with the record header — type,
subtype, and the 16-bit length `data.len() + 4` — appends the payload,
appends a fresh sentinel, and grows the buffer by exactly
`data.len() + 4` bytes.  The representation (`Cow` borrowed or owned)
does not matter: the hypothesis constrains only the contents. -/
theorem pathBuf_push_appends_record (p : PathBuf) (init : List Nat) (ty sub : Nat)
    (data : List Nat) (hrep : p.rep.bytes = init ++ sentinel)
    (hfit : data.length + 4 ≤ 0xFFFF) :
    p.push ty sub data = some ⟨.owned (init ++
      [ty, sub, (data.length + 4) % 256, (data.length + 4) / 256 % 256] ++
      data ++ sentinel)⟩ ∧
    (init ++ [ty, sub, (data.length + 4) % 256, (data.length + 4) / 256 % 256] ++
        data ++ sentinel).length = p.rep.bytes.length + (data.length + 4) := by
  have hlen4 : (init ++ sentinel).length = init.length + 4 := by
    simp [sentinel]
  have htake : (init ++ sentinel).take ((init ++ sentinel).length - 4) = init := by
    have h : (init ++ sentinel).length - 4 = init.length := by omega
    rw [h, List.take_left]
  constructor
  · unfold PathBuf.push
    rw [if_neg (by omega)]
    simp only [CowBytes.toMut]
    rw [hrep]
    rw [if_neg (by omega), htake]
  · rw [hrep]
    simp only [List.length_append, List.length_cons, List.length_nil, hlen4]
    simp [sentinel]
    omega

/-- Witness for C5: pushing type 1, subtype 2, payload `[9]` onto the fresh
(borrowed) `PathBuf::new()` yields `01 02 05 00 09` followed by the
sentinel, 9 bytes in total — 5 more than the input's 4. -/
theorem pathBuf_push_appends_record_witness :
    PathBuf.new.rep.bytes = [] ++ sentinel ∧
    ([9] : List Nat).length + 4 ≤ 0xFFFF ∧
    (PathBuf.new.push 1 2 [9] = some ⟨.owned ([] ++
        [1, 2, (([9] : List Nat).length + 4) % 256,
          (([9] : List Nat).length + 4) / 256 % 256] ++ [9] ++ sentinel)⟩ ∧
      ([] ++ [1, 2, (([9] : List Nat).length + 4) % 256,
          (([9] : List Nat).length + 4) / 256 % 256] ++ [9] ++ sentinel).length =
        PathBuf.new.rep.bytes.length + (([9] : List Nat).length + 4)) :=
  ⟨rfl, by decide, pathBuf_push_appends_record PathBuf.new [] 1 2 [9] rfl (by decide)⟩

/-! ## Claim C6 -/

/-- The UCS-2 code units of `"\EFI\BOOT\BOOTX64.EFI"`. -/
def bootX64Str : List Nat :=
  [92, 69, 70, 73, 92, 66, 79, 79, 84, 92, 66, 79, 79, 84, 88, 54, 52, 46, 69, 70, 73]

/-- C6: building a `PathBuf` from empty and pushing one media-file-path
record with payload `"\EFI\BOOT\BOOTX64.EFI"`, then iterating, yields
exactly one non-sentinel record that decodes back to the input string, and
the buffer's last 4 bytes are `7F FF 04 00`. -/
theorem pathBuf_roundtrip_bootx64 :
    (PathBuf.new.pushMediaFilePath bootX64Str).map
      (fun q => ((pathNodes q.rep.bytes.length q.rep.bytes).map pathRead,
        q.rep.bytes.drop (q.rep.bytes.length - 4))) =
      some ([PathNode.mediaFilePath bootX64Str], [0x7F, 0xFF, 0x04, 0x00]) := by
  rfl

/-! ## Claim C7 -/

/-- C7: for every wrapped pointer and either release flavor (plain function
pointer or boxed closure), dropping an `Owned` invokes the release function
exactly once, with exactly the wrapped pointer, without panicking; the
post-drop state (whose destructor slot was `take`n) performs no further
release call — a hypothetical second drop only trips the `unwrap`. -/
theorem owned_release_exactly_once (p : Nat) (d : Dtor) :
    (Owned.new p d).drop.calls = [(d, p)] ∧
    (Owned.new p d).drop.panicked = false ∧
    (Owned.new p d).drop.post.drop.calls = [] ∧
    (Owned.new p d).drop.post.drop.panicked = true :=
  ⟨rfl, rfl, rfl, rfl⟩

/-! ## Claim C8 -/

/-- C8: for every device path whose leading record has a type/subtype pair
other than `(4, 4)`, `Path::read` hits the `todo!` branch — it diverges
with an unimplemented-case signal carrying that pair, and never yields a
record or skips over it. -/
theorem pathRead_unrecognized_diverges (b : List Nat)
    (h : ¬(b.getD 0 0 = 4 ∧ b.getD 1 0 = 4)) :
    pathRead b = .unimplemented (b.getD 0 0) (b.getD 1 0) := by
  unfold pathRead
  rw [if_neg h]

/-- Witness for C8: a leading record of type 1, subtype 1. -/
theorem pathRead_unrecognized_diverges_witness :
    ¬(([1, 1, 4, 0] : List Nat).getD 0 0 = 4 ∧
      ([1, 1, 4, 0] : List Nat).getD 1 0 = 4) ∧
    pathRead [1, 1, 4, 0] = .unimplemented 1 1 :=
  ⟨by decide, pathRead_unrecognized_diverges [1, 1, 4, 0] (by decide)⟩

/-! ## Claim C9 -/

/-- C9: `Path::to_media_file_path` never returns `None`: when the leading
record has type 4 and subtype 4 it returns `Some` of the decoded string;
for every other leading pair — including the empty path `Path::EMPTY`,
whose leading record is the sentinel `(0x7F, 0xFF)` — it diverges through
the `todo!` branch of `Path::read` instead of returning. -/
theorem toMediaFilePath_never_none :
    (∀ b : List Nat, toMediaFilePath b ≠ .value none) ∧
    (∀ b : List Nat, b.getD 0 0 = 4 → b.getD 1 0 = 4 →
      toMediaFilePath b =
        .value (some (efiStrFromBytes (b.drop 4).length (b.drop 4)))) ∧
    (∀ b : List Nat, ¬(b.getD 0 0 = 4 ∧ b.getD 1 0 = 4) →
      toMediaFilePath b = .diverge (b.getD 0 0) (b.getD 1 0)) ∧
    toMediaFilePath pathEmpty = .diverge 0x7F 0xFF := by
  refine ⟨?_, ?_, ?_, rfl⟩
  · intro b
    unfold toMediaFilePath pathRead
    by_cases h : b.getD 0 0 = 4 ∧ b.getD 1 0 = 4
    · rw [if_pos h]
      simp
    · rw [if_neg h]
      simp
  · intro b h1 h2
    unfold toMediaFilePath pathRead
    rw [if_pos ⟨h1, h2⟩]
  · intro b h
    unfold toMediaFilePath pathRead
    rw [if_neg h]

/-- Witness for C9: a media-file-path record whose payload decodes to the
single character `A`. -/
theorem toMediaFilePath_never_none_witness :
    ([4, 4, 8, 0, 65, 0, 0, 0] : List Nat).getD 0 0 = 4 ∧
    ([4, 4, 8, 0, 65, 0, 0, 0] : List Nat).getD 1 0 = 4 ∧
    toMediaFilePath [4, 4, 8, 0, 65, 0, 0, 0] = .value (some [65]) :=
  ⟨rfl, rfl, by
    have h := toMediaFilePath_never_none.2.1 [4, 4, 8, 0, 65, 0, 0, 0] rfl rfl
    exact h⟩

/-! ## Claim C10 -/

/-- Helper: `<EfiStr as AsRef<[u8]>>::as_ref` yields two bytes per code
unit, NUL terminator included. -/
theorem efiStrBytes_length (s : List Nat) :
    (efiStrBytes s).length = 2 * (s.length + 1) := by
  induction s with
  | nil => rfl
  | cons c rest ih =>
    simp only [efiStrBytes, u16Bytes, List.length_append, List.length_cons,
      List.length_nil, ih]
    omega

/-- C10: `PathBuf::push_media_file_path` panics (the checked `u16`
conversion's `unwrap`) exactly when the byte length of the encoded name —
two bytes per character, NUL terminator included — plus 4 exceeds
`0xFFFF`; for every shorter name the conversion succeeds and the push
returns normally.  (The hypothesis rules out the degenerate sub-4-byte
buffer no well-formed `PathBuf` has.) -/
theorem pushMediaFilePath_panic_iff (p : PathBuf) (s : List Nat)
    (hlen : 4 ≤ p.rep.bytes.length) :
    p.pushMediaFilePath s = none ↔ 2 * (s.length + 1) + 4 > 0xFFFF := by
  unfold PathBuf.pushMediaFilePath PathBuf.push
  by_cases hbig : 2 * (s.length + 1) + 4 > 0xFFFF
  · rw [if_pos (by rw [efiStrBytes_length]; exact hbig)]
    simp [hbig]
  · rw [if_neg (by rw [efiStrBytes_length]; omega)]
    simp only [CowBytes.toMut]
    rw [if_neg (by omega)]
    simp [hbig]

/-- Witness for C10: pushing the one-character name `A` onto a fresh
`PathBuf` does not panic. -/
theorem pushMediaFilePath_panic_iff_witness :
    4 ≤ PathBuf.new.rep.bytes.length ∧
    (PathBuf.new.pushMediaFilePath [65] = none ↔
      2 * (([65] : List Nat).length + 1) + 4 > 0xFFFF) :=
  ⟨by decide, pushMediaFilePath_panic_iff PathBuf.new [65] (by decide)⟩

end ZFI
